import Mathlib

/-!
Shallow embedding of the expression AST core of the flang Fortran front end:
the Expr.cpp translation unit embedded in src/lib/AST/StmtDumper.cpp together
with the Expr.h declarations kept in src/unnamed/part_000.  Byte strings are
`List Char`, source locations are `Nat` offsets, `llvm::APInt` fixed-width
arithmetic is `Nat` with an explicit `% 2 ^ w`, and nullable pointers are
`Option`.  Operations with no defined result in the C++ (out-of-range access,
`back()` of an empty list, downcast of the wrong class) are `Option`-valued,
with `none` for the undefined case.
-/

/-- Semantic type slot of an expression node (`QualType`); only the members the
embedded operations inspect are modelled, plus an array type former consumed by
`ArrayElementExpr.Create`. -/
inductive QualType where
  | integerTy
  | realTy
  | characterTy
  | logicalTy
  | complexTy
  | arrayTy (elem : QualType)
  | noneTy
  deriving DecidableEq

/-- Operator tag of `UnaryExpr` (src/unnamed/part_000 lines 551-562: None, Not,
Plus, Minus, Defined). -/
inductive UnaryOp where
  | NoneOp
  | Not
  | Plus
  | Minus
  | Defined
  deriving DecidableEq

/-- Expression nodes that the verified queries traverse.  Each constructor
stores exactly the fields its C++ class stores: `constant` is `ConstantExpr`
(semantic type, construction location `Loc`, literal-text end `MaxLoc`,
optional kind-selector sub-expression), `substring` is `SubstringExpr`
(location, target, optional start and end bounds), `arrayElement` is
`ArrayElementExpr` (eagerly computed element type, location, target, subscript
list held by its `MultiArgumentExpr` part), `unary` is `UnaryExpr`. -/
inductive Expr where
  | constant (ty : QualType) (loc maxLoc : Nat) (kindSelector : Option Expr)
  | substring (loc : Nat) (target : Expr) (startPoint endPoint : Option Expr)
  | arrayElement (ty : QualType) (loc : Nat) (target : Expr) (subscripts : List Expr)
  | unary (ty : QualType) (loc : Nat) (op : UnaryOp) (operand : Expr)

/-- Models Expr::getType, reading the type slot; SubstringExpr is always
constructed with `C.CharacterTy` (Expr.cpp line 404). -/
def Expr.getType : Expr → QualType
  | .constant ty _ _ _ => ty
  | .substring _ _ _ _ => QualType.characterTy
  | .arrayElement ty _ _ _ => ty
  | .unary ty _ _ _ => ty

mutual

/-- Models the getLocEnd queries of Expr.cpp: ConstantExpr::getLocEnd returns
the stored `MaxLoc` (line 263-265), SubstringExpr::getLocEnd prefers the end
bound, then the start bound, then the node's own location (lines 415-419),
ArrayElementExpr::getLocEnd takes the last subscript's end (lines 435-437), and
UnaryExpr::getLocEnd forwards to the operand (lines 492-494).  The result is
`none` exactly when the query reaches `getArguments().back()` on an empty
argument list, whose result the C++ leaves undefined. -/
def Expr.getLocEnd : Expr → Option Nat
  | .constant _ _ maxLoc _ => some maxLoc
  | .substring loc _ startPoint endPoint =>
    match endPoint with
    | some e => Expr.getLocEnd e
    | none =>
      match startPoint with
      | some s => Expr.getLocEnd s
      | none => some loc
  | .arrayElement _ _ _ subscripts => Expr.lastLocEnd subscripts
  | .unary _ _ _ operand => Expr.getLocEnd operand

/-- Models `getArguments().back()->getLocEnd()` on an argument list; `none` on
the empty list, where `back()` has no defined result. -/
def Expr.lastLocEnd : List Expr → Option Nat
  | [] => none
  | [e] => Expr.getLocEnd e
  | _ :: e :: rest => Expr.lastLocEnd (e :: rest)

end

/-- Models ConstantExpr::setKindSelector (src/unnamed/part_000 line 93), the
write Sema performs after construction; identity on non-constant nodes, which
do not have the member. -/
def Expr.setKindSelector (e : Expr) (k : Expr) : Expr :=
  match e with
  | .constant ty loc maxLoc _ => .constant ty loc maxLoc (some k)
  | other => other

/-- Models UnaryExpr::Create (Expr.cpp lines 485-490): the node's type is the
operand's type unless the operator is Not, which forces the logical type. -/
def UnaryExpr.Create (loc : Nat) (op : UnaryOp) (e : Expr) : Expr :=
  Expr.unary (if op = UnaryOp.Not then QualType.logicalTy else e.getType) loc op e

/-- Models SubstringExpr::Create (Expr.cpp lines 408-412). -/
def SubstringExpr.Create (loc : Nat) (target : Expr)
    (startPoint endPoint : Option Expr) : Expr :=
  Expr.substring loc target startPoint endPoint

/-- Element type of an array type (`asArrayType()->getElementType()`); `none`
models the undefined downcast on a non-array type. -/
def QualType.elementTypeOf : QualType → Option QualType
  | .arrayTy t => some t
  | _ => none

/-- Models ArrayElementExpr::Create (Expr.cpp lines 421-433): the element type
is computed eagerly from the target's already-resolved array type. -/
def ArrayElementExpr.Create (loc : Nat) (target : Expr) (subs : List Expr) :
    Option Expr :=
  (target.getType.elementTypeOf).map fun ty => Expr.arrayElement ty loc target subs

/-- Models the MultiArgumentExpr constructor's storage decision (Expr.cpp lines
385-396): the stored pointer is null exactly for a zero-length argument list. -/
def MultiArgumentExpr.store (args : List Expr) : Option (List Expr) :=
  if args.isEmpty then none else some args

/-- Code of a byte after LLVM's ascii tolower: uppercase ASCII shifted into
lowercase, all other bytes unchanged. -/
def lowerCode (c : Char) : Nat :=
  if 65 ≤ c.toNat ∧ c.toNat ≤ 90 then c.toNat + 32 else c.toNat

/-- Models StringRef::compare_lower, the three-way case-insensitive comparison
used by the logical-constant constructor: first differing lowercased byte
decides, then the shorter string compares below the longer. -/
def compareLowerList : List Char → List Char → Int
  | [], [] => 0
  | [], _ :: _ => -1
  | _ :: _, [] => 1
  | a :: as, b :: bs =>
    if lowerCode a < lowerCode b then -1
    else if lowerCode b < lowerCode a then 1
    else compareLowerList as bs

/-- Numeric value of a digit character as StringRef::getAsInteger reads it
(0-9, then letters in either case starting at 10). -/
def digitVal (c : Char) : Option Nat :=
  if 48 ≤ c.toNat ∧ c.toNat ≤ 57 then some (c.toNat - 48)
  else if 97 ≤ c.toNat ∧ c.toNat ≤ 122 then some (c.toNat - 87)
  else if 65 ≤ c.toNat ∧ c.toNat ≤ 90 then some (c.toNat - 55)
  else none

/-- Models StringRef::getAsInteger into an llvm::APInt: the exact
(arbitrary-precision) value of the digit string in the given radix, `none` when
the string is empty or some character is not a digit of the radix (the C++ call
reports an error and the stored value is unspecified). -/
def getAsIntegerNat (radix : Nat) (s : List Char) : Option Nat :=
  if s.isEmpty then none
  else
    s.foldl (fun acc c =>
      acc.bind fun a => (digitVal c).bind fun d =>
        if d < radix then some (a * radix + d) else none) (some 0)

/-- Helper for `rfindChar`: scans left to right remembering the last index at
which the character occurred. -/
def rfindAux (c : Char) : List Char → Nat → Option Nat → Option Nat
  | [], _, acc => acc
  | x :: rest, i, acc => rfindAux c rest (i + 1) (if x == c then some i else acc)

/-- Models StringRef::rfind of a single character: index of its last
occurrence, with `none` for the npos result. -/
def rfindChar (s : List Char) (c : Char) : Option Nat :=
  rfindAux c s 0 none

/-- Models StringRef::slice(Start, End): Start is clamped to the length, End to
the range between Start and the length, and the half-open span is returned. -/
def sliceSR (s : List Char) (a b : Nat) : List Char :=
  (s.drop (min a s.length)).take (min (max a b) s.length - min a s.length)

/-- ASCII quote character delimiting a BOZ digit string. -/
def quoteChar : Char := Char.ofNat 39

/-- ASCII NUL byte. -/
def nullChar : Char := Char.ofNat 0

/-- Kind discriminator of BOZConstantExpr, in its C++ declaration order
(src/unnamed/part_000 line 266): Hexadecimal, Octal, Binary. -/
inductive BOZKind where
  | Hexadecimal
  | Octal
  | Binary
  deriving DecidableEq

/-- Numeric value of a BOZKind enumerator (unscoped C++ enum, zero-based). -/
def BOZKind.enumVal : BOZKind → Nat
  | .Hexadecimal => 0
  | .Octal => 1
  | .Binary => 2

/-- Numeric value of the expression-class enumerator `BinaryExprClass` that
Expr.cpp line 328 assigns into the BOZKind-typed field: in the expression
discriminator enumeration declared in src/unnamed/part_000 (lines 36-58) the
binary-expression tag is the fourteenth enumerator, value 13.  The development
below depends only on this value being distinct from `BOZKind.Binary.enumVal`,
which holds in that enumeration and in any layout in which the
binary-expression tag follows the block of constant-class tags. -/
def ExprTypeBinaryEnumVal : Nat := 13

/-- Observable result of running the BOZConstantExpr constructor body
(Expr.cpp lines 322-347): `kindVal` is the numeric value stored into the Kind
field, `value` the numeric payload computed by getAsInteger (whose error return
the constructor ignores; `none` marks the unspecified stored value of the error
case), and `assertOK` the condition of the construction-time
`assert(LastQuote == llvm::StringRef::npos && "Invalid BOZ constant!")`:
with assertions enabled construction aborts when `assertOK` is false, and the
other fields describe the NDEBUG behaviour. -/
structure BOZConstantExpr where
  kindVal : Nat
  value : Option Nat
  assertOK : Bool
  deriving DecidableEq

/-- Stored kind and radix selected by the one-character prefix (the switch at
Expr.cpp lines 326-339); the `B` arm stores `BinaryExprClass`, not
`BOZKind.Binary`.  The switch has no default, so any other prefix leaves the
kind uninitialised and the radix zero; `none` models that undefined case. -/
def bozKindRadix : Char → Option (Nat × Nat)
  | 'B' => some (ExprTypeBinaryEnumVal, 2)
  | 'O' => some (BOZKind.Octal.enumVal, 8)
  | 'Z' => some (BOZKind.Hexadecimal.enumVal, 16)
  | 'X' => some (BOZKind.Hexadecimal.enumVal, 16)
  | _ => none

/-- Models BOZConstantExpr construction on token text `data`; `none` when the
text is shorter than two characters (the `Data[0]`/`Data[1]` accesses are
asserted in range by StringRef) or the prefix selects no radix. -/
def BOZConstantExpr.Create (data : List Char) : Option BOZConstantExpr :=
  match data[0]?, data[1]? with
  | some c0, some c1 =>
    (bozKindRadix c0).map fun kr =>
      let lastQuote := rfindChar data c1
      let numStr := sliceSR data 2 (lastQuote.getD data.length)
      { kindVal := kr.1
        value := getAsIntegerNat kr.2 numStr
        assertOK := lastQuote == none }
  | _, _ => none

/-- Models BOZConstantExpr::getBOZKind, reading back the stored kind field. -/
def BOZConstantExpr.getBOZKind (e : BOZConstantExpr) : Nat := e.kindVal

/-- Models BOZConstantExpr::isBinaryKind (`Kind == Binary`). -/
def BOZConstantExpr.isBinaryKind (e : BOZConstantExpr) : Bool :=
  e.kindVal == BOZKind.Binary.enumVal

/-- Models BOZConstantExpr::isOctalKind. -/
def BOZConstantExpr.isOctalKind (e : BOZConstantExpr) : Bool :=
  e.kindVal == BOZKind.Octal.enumVal

/-- Models BOZConstantExpr::isHexKind. -/
def BOZConstantExpr.isHexKind (e : BOZConstantExpr) : Bool :=
  e.kindVal == BOZKind.Hexadecimal.enumVal

/-- Token text the logical-constant constructor compares against. -/
def dotTrueToken : List Char := ".TRUE.".toList

/-- Payload of LogicalConstantExpr: the single stored truth value. -/
structure LogicalConstantExpr where
  val : Bool
  deriving DecidableEq

/-- Models LogicalConstantExpr construction (Expr.cpp lines 354-358):
`Val = (Data.compare_lower(".TRUE.") == 0)`. -/
def LogicalConstantExpr.Create (data : List Char) : LogicalConstantExpr :=
  ⟨compareLowerList data dotTrueToken == 0⟩

/-- Models LogicalConstantExpr::isTrue. -/
def LogicalConstantExpr.isTrue (e : LogicalConstantExpr) : Bool := e.val

/-- Models LogicalConstantExpr::isFalse. -/
def LogicalConstantExpr.isFalse (e : LogicalConstantExpr) : Bool := !e.val

/-- Fixed-width llvm::APInt value: a bit width plus a value already reduced
modulo 2 to that width. -/
structure APIntModel where
  bitWidth : Nat
  val : Nat
  deriving DecidableEq

/-- Models llvm::APInt(numBits, str, radix): the digit loop multiplies by the
radix and adds each digit at the fixed width, i.e. computes the digit string's
value reduced modulo `2 ^ numBits`.  Digits outside the radix are rejected by
an assertion in the C++; the theorems only instantiate this on digit strings of
the radix. -/
def APIntFromString (numBits radix : Nat) (s : List Char) : APIntModel :=
  ⟨numBits, s.foldl (fun a c => (a * radix + (digitVal c).getD 0) % 2 ^ numBits) 0⟩

/-- Mathematical value denoted by a decimal digit string. -/
def decDigitsVal (s : List Char) : Nat :=
  s.foldl (fun a c => a * 10 + (c.toNat - 48)) 0

/-- Decimal digit test. -/
def isDecDigit (c : Char) : Bool := 48 ≤ c.toNat && c.toNat ≤ 57

/-- Payload of IntegerConstantExpr: the two locations of the ConstantExpr base
plus the numeric storage. -/
structure IntegerConstantExpr where
  loc : Nat
  maxLoc : Nat
  num : APIntModel
  deriving DecidableEq

/-- Models IntegerConstantExpr construction (Expr.cpp lines 267-277):
`llvm::APInt Val(64, Data, 10)` stored through APIntStorage. -/
def IntegerConstantExpr.Create (loc maxLoc : Nat) (data : List Char) :
    IntegerConstantExpr :=
  ⟨loc, maxLoc, APIntFromString 64 10 data⟩

/-- Models IntegerConstantExpr::getValue. -/
def IntegerConstantExpr.getValue (e : IntegerConstantExpr) : APIntModel := e.num

/-- Longest NUL-free leading run of a byte list: the bytes strncpy reads from
its source. -/
def takeToNull : List Char → List Char
  | [] => []
  | c :: rest => if c == nullChar then [] else c :: takeToNull rest

/-- Models strncpy(dest, src, n): the source's bytes up to its first NUL, then
NUL padding, always exactly n bytes. -/
def strncpyList (src : List Char) (n : Nat) : List Char :=
  let copied := (takeToNull src).take n
  copied ++ List.replicate (n - copied.length) nullChar

/-- Payload of CharacterConstantExpr: the arena-owned buffer contents. -/
structure CharacterConstantExpr where
  data : List Char
  deriving DecidableEq

/-- Models CharacterConstantExpr construction (Expr.cpp lines 307-314): a fresh
buffer of size `data.size() + 1` filled by `strncpy` from the token text, with
the final byte set to NUL explicitly. -/
def CharacterConstantExpr.Create (d : List Char) : CharacterConstantExpr :=
  ⟨strncpyList d d.length ++ [nullChar]⟩

/-- Models CharacterConstantExpr::getValue, reading the owned buffer. -/
def CharacterConstantExpr.getValue (e : CharacterConstantExpr) : List Char :=
  e.data

/-- Array-shape kinds (src/unnamed/part_000 lines 404-410). -/
inductive ArraySpecKind where
  | k_ExplicitShape
  | k_AssumedShape
  | k_DeferredShape
  | k_AssumedSize
  | k_ImpliedShape
  deriving DecidableEq

/-- Constructible array-shape specifications: one constructor per C++
constructor reachable through a factory (Expr.cpp lines 650-698).
AssumedSizeSpec (src/unnamed/part_000 lines 488-501) is marked `FIXME: Finish`,
declares no constructor or factory, and its implicit default constructor is
deleted because the ArraySpec base has none, so no assumed-size value is
constructible and the type faithfully has no such constructor. -/
inductive ArraySpec where
  | explicitShape (lowerBound : Option Expr) (upperBound : Expr)
  | assumedShape (lowerBound : Option Expr)
  | deferredShape
  | impliedShape (loc : Nat) (lowerBound : Option Expr)

/-- Models ArraySpec::getKind, the tag stored by each constructor. -/
def ArraySpec.getKind : ArraySpec → ArraySpecKind
  | .explicitShape _ _ => .k_ExplicitShape
  | .assumedShape _ => .k_AssumedShape
  | .deferredShape => .k_DeferredShape
  | .impliedShape _ _ => .k_ImpliedShape

/-- Bound expressions an instance exposes through its accessors: explicit shape
has getLowerBound and getUpperBound, assumed and implied shape only
getLowerBound, deferred shape has no bound accessor at all. -/
def ArraySpec.boundExprList : ArraySpec → List Expr
  | .explicitShape lb ub => lb.toList ++ [ub]
  | .assumedShape lb => lb.toList
  | .deferredShape => []
  | .impliedShape _ lb => lb.toList

/-- Models ExplicitShapeSpec::Create(C, UB) (Expr.cpp lines 658-660). -/
def ExplicitShapeSpec.Create (ub : Expr) : ArraySpec := .explicitShape none ub

/-- Models ExplicitShapeSpec::Create(C, LB, UB) (Expr.cpp lines 662-665). -/
def ExplicitShapeSpec.CreateWithLower (lb ub : Expr) : ArraySpec :=
  .explicitShape (some lb) ub

/-- Models AssumedShapeSpec::Create(C) (Expr.cpp lines 672-674). -/
def AssumedShapeSpec.Create : ArraySpec := .assumedShape none

/-- Models AssumedShapeSpec::Create(C, LB) (Expr.cpp lines 676-678). -/
def AssumedShapeSpec.CreateWithLower (lb : Expr) : ArraySpec :=
  .assumedShape (some lb)

/-- Models DeferredShapeSpec::Create(C) (Expr.cpp lines 683-685). -/
def DeferredShapeSpec.Create : ArraySpec := .deferredShape

/-- Models ImpliedShapeSpec::Create(C, Loc) (Expr.cpp lines 692-694). -/
def ImpliedShapeSpec.Create (loc : Nat) : ArraySpec := .impliedShape loc none

/-- Models ImpliedShapeSpec::Create(C, Loc, LB) (Expr.cpp lines 696-698). -/
def ImpliedShapeSpec.CreateWithLower (loc : Nat) (lb : Expr) : ArraySpec :=
  .impliedShape loc (some lb)

/-- Token text B'1010' as a byte list. -/
def tokB1010 : List Char := ['B', quoteChar, '1', '0', '1', '0', quoteChar]

/-- Token text O'17' as a byte list. -/
def tokO17 : List Char := ['O', quoteChar, '1', '7', quoteChar]

/-- Token text Z'FF' as a byte list. -/
def tokZFF : List Char := ['Z', quoteChar, 'F', 'F', quoteChar]

/-- Token text X'FF' as a byte list. -/
def tokXFF : List Char := ['X', quoteChar, 'F', 'F', quoteChar]

/-- Malformed token text B'1010 (closing quote missing) as a byte list. -/
def tokB1010Open : List Char := ['B', quoteChar, '1', '0', '1', '0']

/-- Decimal digit string denoting 2 to the 64th power, the smallest power of
ten-free value exceeding the 64-bit default width. -/
def bigDigits : List Char := "18446744073709551616".toList

/-- Decimal digit string used as the specification's own example. -/
def claimDigits : List Char := "123456789012345".toList

/-- Character-literal input containing an interior NUL byte. -/
def charCexInput : List Char := ['A', nullChar, 'B']

/-- NUL-free character-literal input. -/
def charWitnessInput : List Char := ['A', 'B']

/-- Substring target whose span ends at offset 3. -/
def c3Target : Expr := Expr.constant QualType.characterTy 0 3 none

/-- Substring start bound whose span ends at offset 7. -/
def c3Start : Expr := Expr.constant QualType.integerTy 5 7 none

/-- Substring node with a start bound only. -/
def c3Node : Expr := SubstringExpr.Create 9 c3Target (some c3Start) none

/-- Kind-selector expression whose span ends at offset 9. -/
def c4KindSel : Expr := Expr.constant QualType.integerTy 8 9 none

/-- Constant whose literal text ends at offset 5, carrying a kind selector
ending at offset 9. -/
def c4Node : Expr := Expr.constant QualType.integerTy 0 5 (some c4KindSel)

/-- Sample bound expression used to exercise the array-shape factories. -/
def sampleBound : Expr := Expr.constant QualType.integerTy 0 0 none

/-- One instance per array-shape factory defined in Expr.cpp lines 650-698 —
the complete set of construction entry points of the ArraySpec family. -/
def allFactorySpecs : List ArraySpec :=
  [ExplicitShapeSpec.Create sampleBound,
   ExplicitShapeSpec.CreateWithLower sampleBound sampleBound,
   AssumedShapeSpec.Create,
   AssumedShapeSpec.CreateWithLower sampleBound,
   DeferredShapeSpec.Create,
   ImpliedShapeSpec.Create 0,
   ImpliedShapeSpec.CreateWithLower 0 sampleBound]

/-- Helper: `lastLocEnd` skips every element before the last one. -/
theorem lastLocEnd_cons_cons (x y : Expr) (xs : List Expr) :
    Expr.lastLocEnd (x :: y :: xs) = Expr.lastLocEnd (y :: xs) := rfl

/-- Helper: on a list with last element `e`, `lastLocEnd` is `e`'s end. -/
theorem lastLocEnd_append (init : List Expr) (e : Expr) :
    Expr.lastLocEnd (init ++ [e]) = Expr.getLocEnd e := by
  induction init with
  | nil => rfl
  | cons a tl ih =>
    cases tl with
    | nil => rfl
    | cons b tl2 =>
      show Expr.lastLocEnd (a :: ((b :: tl2) ++ [e])) = Expr.getLocEnd e
      rw [List.cons_append, lastLocEnd_cons_cons]
      exact ih

/-- Helper: compare_lower reports equality exactly when the two strings agree
pointwise after lowercasing. -/
theorem compareLower_eq_zero_iff :
    ∀ a b : List Char, compareLowerList a b = 0 ↔ a.map lowerCode = b.map lowerCode
  | [], [] => by simp [compareLowerList]
  | [], y :: ys => by simp [compareLowerList]
  | x :: xs, [] => by simp [compareLowerList]
  | x :: xs, y :: ys => by
    simp only [compareLowerList, List.map_cons, List.cons.injEq]
    rcases Nat.lt_trichotomy (lowerCode x) (lowerCode y) with h | h | h
    · rw [if_pos h]
      constructor
      · intro habs; exact absurd habs (by decide)
      · rintro ⟨h1, _⟩; exact absurd h1 (Nat.ne_of_lt h)
    · rw [if_neg (by omega), if_neg (by omega)]
      rw [compareLower_eq_zero_iff xs ys]
      simp [h]
    · rw [if_neg (by omega), if_pos h]
      constructor
      · intro habs; exact absurd habs (by decide)
      · rintro ⟨h1, _⟩; exact absurd h1.symm (Nat.ne_of_lt h)

/-- Helper: the fixed-width digit loop of APIntFromString computes the
mathematical decimal value reduced modulo 2 to the 64th. -/
theorem apint_decimal :
    ∀ (s : List Char), s.all isDecDigit = true →
      ∀ a : Nat,
        s.foldl (fun x c => (x * 10 + (digitVal c).getD 0) % 2 ^ 64) (a % 2 ^ 64)
          = (s.foldl (fun x c => x * 10 + (c.toNat - 48)) a) % 2 ^ 64
  | [], _, a => by simp
  | c :: cs, h, a => by
    rw [List.all_cons, Bool.and_eq_true] at h
    obtain ⟨hc, hcs⟩ := h
    have hb : 48 ≤ c.toNat ∧ c.toNat ≤ 57 := by
      simpa [isDecDigit, Bool.and_eq_true, decide_eq_true_eq] using hc
    have hd : (digitVal c).getD 0 = c.toNat - 48 := by
      simp only [digitVal]
      rw [if_pos hb]
      rfl
    simp only [List.foldl_cons]
    rw [hd]
    have hmod : ((a % 2 ^ 64) * 10 + (c.toNat - 48)) % 2 ^ 64
        = (a * 10 + (c.toNat - 48)) % 2 ^ 64 :=
      ((Nat.mod_modEq a (2 ^ 64)).mul_right 10).add_right _
    rw [hmod]
    exact apint_decimal cs hcs (a * 10 + (c.toNat - 48))

/-- Helper: strncpy copies its source unchanged when the source is NUL-free. -/
theorem takeToNull_all (d : List Char)
    (h : d.all (fun c => !(c == nullChar)) = true) : takeToNull d = d := by
  induction d with
  | nil => rfl
  | cons c rest ih =>
    rw [List.all_cons, Bool.and_eq_true] at h
    obtain ⟨hc, hrest⟩ := h
    have hc2 : (c == nullChar) = false := by simpa using hc
    simp [takeToNull, hc2, ih hrest]

/-- Claim C1 (code evaluation at the failing input): BOZ construction on
B'1010' selects radix 2 and parses the exact value 10, and O'17', Z'FF', X'FF'
yield the octal and hexadecimal kinds with exact values 15 and 255; but the
kind stored for prefix B is the expression-class tag `BinaryExprClass`
(value 13), which differs from `BOZKind.Binary` (value 2), so getBOZKind does
not read back binary and isBinaryKind is false — the code slip the claim's B
case hits. -/
theorem bozConstant_radix_kind_eval :
    (BOZConstantExpr.Create tokB1010).map
        (fun e => (e.getBOZKind, e.value, e.isBinaryKind))
      = some (ExprTypeBinaryEnumVal, some 10, false)
    ∧ (ExprTypeBinaryEnumVal == BOZKind.Binary.enumVal) = false
    ∧ (BOZConstantExpr.Create tokO17).map
        (fun e => (e.getBOZKind, e.value, e.isOctalKind))
      = some (BOZKind.Octal.enumVal, some 15, true)
    ∧ (BOZConstantExpr.Create tokZFF).map
        (fun e => (e.getBOZKind, e.value, e.isHexKind))
      = some (BOZKind.Hexadecimal.enumVal, some 255, true)
    ∧ (BOZConstantExpr.Create tokXFF).map
        (fun e => (e.getBOZKind, e.value, e.isHexKind))
      = some (BOZKind.Hexadecimal.enumVal, some 255, true) :=
  ⟨by decide, by decide, by decide, by decide, by decide⟩

/-- Claim C2 (code evaluation at the failing input): the construction-time
assertion condition `LastQuote == npos` is false both on the well-formed token
B'1010' (rfind returns the closing quote's index 6) and on the unterminated
token B'1010 (rfind still returns the opening quote's index 1), so with
assertions enabled construction aborts in both cases — the assertion can never
pass for any token of length at least two, contradicting the claim that it
passes exactly on well-formed tokens. -/
theorem bozConstant_assert_eval :
    (BOZConstantExpr.Create tokB1010).map BOZConstantExpr.assertOK = some false
    ∧ (BOZConstantExpr.Create tokB1010Open).map BOZConstantExpr.assertOK
        = some false :=
  ⟨by decide, by decide⟩

/-- Claim C3 (counterexample): on a substring with only a start bound, the
end-of-span query returns the start bound's end location (7), not the target's
end location (3), refuting the claimed start-only rule. -/
theorem substring_locEnd_startOnly_cex :
    Expr.getLocEnd c3Node = some 7
    ∧ Expr.getLocEnd c3Target = some 3
    ∧ (Expr.getLocEnd c3Node == Expr.getLocEnd c3Target) = false :=
  ⟨by decide, by decide, by decide⟩

/-- Claim C3 (amended): the substring end-of-span query prefers the end bound's
end location, then the start bound's end location, and with neither bound
present returns the node's own stored location. -/
theorem substring_locEnd_rule :
    (∀ (loc : Nat) (target : Expr) (s : Option Expr) (e : Expr),
        Expr.getLocEnd (SubstringExpr.Create loc target s (some e))
          = Expr.getLocEnd e)
    ∧ (∀ (loc : Nat) (target s : Expr),
        Expr.getLocEnd (SubstringExpr.Create loc target (some s) none)
          = Expr.getLocEnd s)
    ∧ (∀ (loc : Nat) (target : Expr),
        Expr.getLocEnd (SubstringExpr.Create loc target none none) = some loc) :=
  ⟨fun _ _ _ _ => rfl, fun _ _ _ => rfl, fun _ _ => rfl⟩

/-- Claim C4 (counterexample): a constant carrying an attached kind selector
whose end is 9 still reports its own literal end 5 from the maximum-location
query, refuting the claimed kind-selector override. -/
theorem constant_locEnd_kindSelector_cex :
    Expr.getLocEnd c4Node = some 5
    ∧ Expr.getLocEnd c4KindSel = some 9
    ∧ (Expr.getLocEnd c4Node == Expr.getLocEnd c4KindSel) = false :=
  ⟨by decide, by decide, by decide⟩

/-- Claim C4 (amended): a constant's maximum-location query returns the stored
literal-text end unconditionally, whether or not a kind selector has been
attached, including after setKindSelector. -/
theorem constant_locEnd_maxLoc :
    (∀ (ty : QualType) (loc maxLoc : Nat) (ks : Option Expr),
        Expr.getLocEnd (Expr.constant ty loc maxLoc ks) = some maxLoc)
    ∧ (∀ (ty : QualType) (loc maxLoc : Nat) (ks : Option Expr) (k : Expr),
        Expr.getLocEnd (Expr.setKindSelector (Expr.constant ty loc maxLoc ks) k)
          = some maxLoc) :=
  ⟨fun _ _ _ _ => rfl, fun _ _ _ _ _ => rfl⟩

/-- Claim C5: logical-constant construction stores true exactly when the token
text equals ".TRUE." up to ASCII lowercasing (any other text, including
".FALSE." and the empty string, stores false), and isFalse is always the
negation of isTrue. -/
theorem logicalConstant_true_iff_ci (data : List Char) :
    (LogicalConstantExpr.Create data).isTrue
      = decide (data.map lowerCode = dotTrueToken.map lowerCode)
    ∧ (LogicalConstantExpr.Create data).isFalse
      = !(LogicalConstantExpr.Create data).isTrue := by
  constructor
  · apply Bool.eq_iff_iff.mpr
    simp only [LogicalConstantExpr.Create, LogicalConstantExpr.isTrue,
      beq_iff_eq, decide_eq_true_eq]
    exact compareLower_eq_zero_iff data dotTrueToken
  · rfl

/-- Claim C6 (counterexample): the 20-digit string denoting 2 to the 64th
constructs an integer constant whose retrieved value is 0, not the denoted
integer — the fixed 64-bit width wraps, refuting exact reproduction for every
decimal digit string. -/
theorem integerConstant_overflow_cex :
    decDigitsVal bigDigits = 18446744073709551616
    ∧ (IntegerConstantExpr.Create 0 0 bigDigits).getValue.val = 0
    ∧ ((IntegerConstantExpr.Create 0 0 bigDigits).getValue.val
        == decDigitsVal bigDigits) = false :=
  ⟨by decide, by decide, by decide⟩

/-- Claim C6 (amended): for every nonempty decimal digit string, construction
followed by getValue yields the denoted integer reduced modulo 2 to the 64th,
stored at the fixed default bit width 64 — hence exactly the denoted integer
whenever it is below 2 to the 64th. -/
theorem integerConstant_mod_value (loc maxLoc : Nat) (s : List Char)
    (h1 : 0 < s.length) (h2 : s.all isDecDigit = true) :
    (IntegerConstantExpr.Create loc maxLoc s).getValue.bitWidth = 64
    ∧ (IntegerConstantExpr.Create loc maxLoc s).getValue.val
        = decDigitsVal s % 2 ^ 64 := by
  refine ⟨rfl, ?_⟩
  have h := apint_decimal s h2 0
  simpa [IntegerConstantExpr.Create, IntegerConstantExpr.getValue,
    APIntFromString, decDigitsVal, Nat.zero_mod] using h

/-- Claim C6 (witness): the specification's own example string parses to the
exact value 123456789012345. -/
theorem integerConstant_mod_value_witness :
    0 < claimDigits.length ∧ claimDigits.all isDecDigit = true
    ∧ (IntegerConstantExpr.Create 0 0 claimDigits).getValue.val
        = 123456789012345 := by
  refine ⟨by decide, by decide, ?_⟩
  rw [(integerConstant_mod_value 0 0 claimDigits (by decide) (by decide)).2]
  decide

/-- Claim C7 (counterexample): an input span with an interior NUL byte is not
copied intact: strncpy stops at the NUL and pads, so the stored buffer differs
from input-plus-terminator, refuting the claim for every input byte span. -/
theorem characterConstant_interior_nul_cex :
    (CharacterConstantExpr.Create charCexInput).getValue
      = ['A', nullChar, nullChar, nullChar]
    ∧ ((CharacterConstantExpr.Create charCexInput).getValue
        == charCexInput ++ [nullChar]) = false :=
  ⟨by decide, by decide⟩

/-- Claim C7 (amended): for every NUL-free input byte span, construction copies
the bytes into a fresh buffer of length one greater than the input, identical
to the input followed by a terminating NUL, and retrieval returns exactly those
bytes. -/
theorem characterConstant_copy (d : List Char)
    (h : d.all (fun c => !(c == nullChar)) = true) :
    (CharacterConstantExpr.Create d).getValue = d ++ [nullChar] := by
  simp [CharacterConstantExpr.Create, CharacterConstantExpr.getValue,
    strncpyList, takeToNull_all d h, List.take_length, Nat.sub_self,
    List.replicate_zero, List.append_nil]

/-- Claim C7 (witness): the NUL-free input AB round-trips to AB plus the
terminator. -/
theorem characterConstant_copy_witness :
    charWitnessInput.all (fun c => !(c == nullChar)) = true
    ∧ (CharacterConstantExpr.Create charWitnessInput).getValue
        = charWitnessInput ++ [nullChar] :=
  ⟨by decide, characterConstant_copy charWitnessInput (by decide)⟩

/-- Claim C8: the unary factory gives a node whose type equals the operand's
type for Plus and Minus, and the logical type for Not, for every operand of
every type. -/
theorem unaryExpr_create_type :
    (∀ (loc : Nat) (e : Expr),
        (UnaryExpr.Create loc UnaryOp.Plus e).getType = e.getType)
    ∧ (∀ (loc : Nat) (e : Expr),
        (UnaryExpr.Create loc UnaryOp.Minus e).getType = e.getType)
    ∧ (∀ (loc : Nat) (e : Expr),
        (UnaryExpr.Create loc UnaryOp.Not e).getType = QualType.logicalTy) :=
  ⟨fun _ _ => rfl, fun _ _ => rfl, fun _ _ => rfl⟩

/-- Claim C9 (counterexample): running every array-shape factory of the source
and reading the kinds back never produces the assumed-size kind —
AssumedSizeSpec has no constructor or factory, so the claimed five-kind round
trip fails at the assumed-size kind. -/
theorem arraySpec_assumedSize_cex :
    ((allFactorySpecs.map ArraySpec.getKind).contains
        ArraySpecKind.k_AssumedSize) = false := by decide

/-- Claim C9 (amended): each of the four implemented kinds round-trips its kind
through its factory and getKind, the deferred-shape factory takes no bounds and
its instance exposes no bound values, each factory accepts only the bound
fields legal for its kind, and the assumed-size kind is unconstructible. -/
theorem arraySpec_kind_roundtrip :
    (∀ ub : Expr,
        (ExplicitShapeSpec.Create ub).getKind = ArraySpecKind.k_ExplicitShape)
    ∧ (∀ lb ub : Expr,
        (ExplicitShapeSpec.CreateWithLower lb ub).getKind
          = ArraySpecKind.k_ExplicitShape)
    ∧ AssumedShapeSpec.Create.getKind = ArraySpecKind.k_AssumedShape
    ∧ (∀ lb : Expr,
        (AssumedShapeSpec.CreateWithLower lb).getKind
          = ArraySpecKind.k_AssumedShape)
    ∧ DeferredShapeSpec.Create.getKind = ArraySpecKind.k_DeferredShape
    ∧ DeferredShapeSpec.Create.boundExprList = []
    ∧ (∀ loc : Nat,
        (ImpliedShapeSpec.Create loc).getKind = ArraySpecKind.k_ImpliedShape)
    ∧ (∀ (loc : Nat) (lb : Expr),
        (ImpliedShapeSpec.CreateWithLower loc lb).getKind
          = ArraySpecKind.k_ImpliedShape)
    ∧ (∀ s : ArraySpec, (s.getKind == ArraySpecKind.k_AssumedSize) = false) :=
  ⟨fun _ => rfl, fun _ _ => rfl, rfl, fun _ => rfl, rfl, rfl, fun _ => rfl,
    fun _ _ => rfl, fun s => by cases s <;> rfl⟩

/-- Claim C10: the array-element end-of-span query returns the end location of
the last subscript whenever the subscript list is nonempty, has no defined
result (none) on an empty subscript list, and the MultiArgumentExpr storage
keeps a null pointer exactly for the zero-length list. -/
theorem arrayElement_locEnd_last :
    (∀ (ty : QualType) (loc : Nat) (target : Expr) (init : List Expr) (e : Expr),
        Expr.getLocEnd (Expr.arrayElement ty loc target (init ++ [e]))
          = Expr.getLocEnd e)
    ∧ (∀ (ty : QualType) (loc : Nat) (target : Expr),
        Expr.getLocEnd (Expr.arrayElement ty loc target []) = none)
    ∧ MultiArgumentExpr.store [] = none
    ∧ (∀ (a : Expr) (args : List Expr),
        MultiArgumentExpr.store (a :: args) = some (a :: args)) := by
  refine ⟨fun ty loc target init e => ?_, fun _ _ _ => rfl, rfl, fun _ _ => rfl⟩
  show Expr.lastLocEnd (init ++ [e]) = Expr.getLocEnd e
  exact lastLocEnd_append init e
